import Mathlib

/-!
Verification of the phase-aware spatial addressing and block-storage core of
the Luanti 4D phase system.  The definitions below are shallow embeddings of
the C++ source: `v4s16` and its hash from `src/irr_v3d.h`, the two coordinate
codecs from `database.cpp` (quoted in `src/Audit/FAILURE_MODE_FIXES.md`), the
phase seed derivation from `servermap.cpp` (fixed version quoted in
`src/Audit/FAILURE_MODE_FIXES.md`), and the block-deletion routine from
`map.cpp` (quoted in `src/Audit/FAILURE_MODE_FIXES.md`).  Machine integers are
modelled as `Int`/`Nat` with explicit reduction mod powers of two: a C++ `s16`
value is an `Int` in `[-32768, 32767]`, a `u16` bit pattern is a `Nat` below
`2^16`, and a 64-bit key is the `Nat` bit pattern of the C++ `s64`/`u64`.
-/

/-- The signed 16-bit range: the values representable by a C++ `s16`. -/
def InS16 (x : Int) : Prop := -32768 ≤ x ∧ x ≤ 32767

instance (x : Int) : Decidable (InS16 x) :=
  inferInstanceAs (Decidable (-32768 ≤ x ∧ x ≤ 32767))

/-- The C++ cast `(u16)x` of a signed 16-bit value: its unsigned 16-bit bit
pattern, i.e. reduction mod `2^16` (`Int.emod` is non-negative here). -/
def u16ofS16 (x : Int) : Nat := (x % 65536).toNat

/-- The C++ cast `(s16)n` of a 16-bit bit pattern back to a signed value:
two's-complement reinterpretation of the low 16 bits. -/
def s16ofBits (n : Nat) : Int :=
  if n % 65536 < 32768 then (n % 65536 : Int) else (n % 65536 : Int) - 65536

/-- The coordinate value type `v3s16` (three signed 16-bit components). -/
structure v3s16 where
  X : Int
  Y : Int
  Z : Int
deriving DecidableEq, Repr

/-- Phase Dimension System: 4D coordinate structure `(X, Y, Z, Phase)` from
`src/irr_v3d.h`.  `P` defaults to 0 ("Default to Phase 0 for backwards
compatibility"), so the three-argument constructor `v4s16.mk x y z` yields
Phase 0, exactly like `v4s16(s16 x, s16 y, s16 z, s16 p = 0)`. -/
structure v4s16 where
  X : Int
  Y : Int
  Z : Int
  P : Int := 0
deriving DecidableEq, Repr

/-- Constructor `v4s16(const v3s16& pos, s16 p = 0)` from `src/irr_v3d.h`. -/
def v4s16.ofV3 (pos : v3s16) (p : Int := 0) : v4s16 :=
  { X := pos.X, Y := pos.Y, Z := pos.Z, P := p }

/-- Conversion `v4s16::toV3s16()` from `src/irr_v3d.h`. -/
def v4s16.toV3s16 (c : v4s16) : v3s16 :=
  { X := c.X, Y := c.Y, Z := c.Z }

/-- `v4s16::Hash::operator()` from `src/irr_v3d.h`: each signed component is
converted to its unsigned 16-bit pattern (`u16 x = (u16)pos.X;` etc.), then
`((size_t)x << 48) ^ ((size_t)y << 32) ^ ((size_t)z << 16) ^ (size_t)p`.
`size_t` is 64 bits; the XOR of these disjoint lanes stays below `2^64`. -/
def v4s16.Hash (pos : v4s16) : Nat :=
  (u16ofS16 pos.X <<< 48) ^^^ (u16ofS16 pos.Y <<< 32) ^^^
    (u16ofS16 pos.Z <<< 16) ^^^ u16ofS16 pos.P

/-- Legacy 3-axis encoding, `MapDatabase::getBlockAsInteger(const v3s16&)`:
`((s64) pos.Z << 24) + ((s64) pos.Y << 12) + pos.X`, in signed arithmetic
(the components are tiny relative to `s64`, so no overflow occurs). -/
def MapDatabase.getBlockAsInteger_v3 (pos : v3s16) : Int :=
  pos.Z * 2 ^ 24 + pos.Y * 2 ^ 12 + pos.X

/-- Legacy 3-axis decoding, `MapDatabase::getIntegerAsBlock(s64)`: first
`i = i + 0x800800800` (offset so that all negative coordinates become
non-negative), then per lane `(s16)((i >> s & 0xFFF) - 0x800)`.  On a signed
64-bit value `>>` is the arithmetic shift, i.e. `Int.fdiv` by the power of
two, and `& 0xFFF` is `Int.emod` by 4096; the final `(s16)` cast is the
identity because `(i & 0xFFF) - 0x800` always lies in `[-2048, 2047]`. -/
def MapDatabase.getIntegerAsBlock_v3 (i : Int) : v3s16 :=
  { X := (i + 0x800800800) % 4096 - 0x800
    Y := (Int.fdiv (i + 0x800800800) 4096) % 4096 - 0x800
    Z := (Int.fdiv (i + 0x800800800) 16777216) % 4096 - 0x800 }

/-- Phase-aware 4-axis encoding, `MapDatabase::getBlockAsInteger(const v4s16&)`:
components become unsigned 16-bit patterns (`u16 x = (u16)pos.X;` etc.), then
`((s64) p << 48) + ((s64) z << 32) + ((s64) y << 16) + x`.  The result is the
64-bit bit pattern of the returned `s64` (the four 16-bit lanes are disjoint,
so the sum is below `2^64`). -/
def MapDatabase.getBlockAsInteger_v4 (pos : v4s16) : Nat :=
  u16ofS16 pos.P * 2 ^ 48 + u16ofS16 pos.Z * 2 ^ 32 +
    u16ofS16 pos.Y * 2 ^ 16 + u16ofS16 pos.X

/-- Phase-aware 4-axis decoding, `MapDatabase::getIntegerAsBlock(s64)` (4D
overload): per lane `(s16)(i >> s & 0xFFFF)` for shifts 0, 16, 32, 48, listed
in initialization order X, Y, Z, P.  `i` is the 64-bit key bit pattern; since
the mask keeps only 16 bits and `s + 16 ≤ 64`, the arithmetic shift of the
`s64` agrees with the logical shift `/ 2 ^ s` of the pattern. -/
def MapDatabase.getIntegerAsBlock_v4 (i : Nat) : v4s16 :=
  { X := s16ofBits (i % 65536)
    Y := s16ofBits (i / 2 ^ 16 % 65536)
    Z := s16ofBits (i / 2 ^ 32 % 65536)
    P := s16ofBits (i / 2 ^ 48 % 65536) }

/-- Phase seed derivation from `servermap.cpp` (fixed version quoted in
`src/Audit/FAILURE_MODE_FIXES.md`): `u16 phase_id = (u16)p.P;` then
`u64 base_seed = getSeed(); u64 phase_modified_seed = base_seed + phase_id;`.
`base_seed` is the full 64-bit world seed pattern; the addition is 64-bit
unsigned, i.e. mod `2^64`. -/
def phase_modified_seed (base_seed : Nat) (phaseP : Int) : Nat :=
  (base_seed + u16ofS16 phaseP) % 2 ^ 64

/-- The final narrowing `m_emerge->mapgen->seed = (s32)phase_modified_seed;`:
the low 32 bits of the derived 64-bit seed, taken once, as the last step. -/
def mapgen_seed (base_seed : Nat) (phaseP : Int) : Nat :=
  phase_modified_seed base_seed phaseP % 2 ^ 32

/-- A `MapBlock` as far as the lifecycle claims need it: an identity for its
payload and the orphaned flag set by `makeOrphan()`. -/
structure MapBlock where
  ident : Nat
  orphaned : Bool := false
deriving DecidableEq, Repr

/-- Lifecycle events emitted by block removal, in program order:
`makeOrphan` is `block->makeOrphan()`, `destroyBlock` is `delete block`
(destructor and memory release), `eraseEntry` is `m_blocks.erase(it)`. -/
inductive MapEvent where
  | makeOrphan (b : Nat)
  | destroyBlock (b : Nat)
  | eraseEntry (pos : v4s16)
deriving DecidableEq, Repr

/-- The `m_blocks` table: association list from `v4s16` to a possibly null
`MapBlock*` (the snippet guards with `if (block)`). -/
abbrev BlockMap := List (v4s16 × Option MapBlock)

/-- `m_blocks.find(pos)`: the stored pointer of the first matching entry, or
`none` when the iterator equals `m_blocks.end()`. -/
def findBlock : BlockMap → v4s16 → Option (Option MapBlock)
  | [], _ => none
  | (k, b) :: rest, pos => if k = pos then some b else findBlock rest pos

/-- `m_blocks.erase(it)`: drop the first entry with the given key. -/
def eraseBlock : BlockMap → v4s16 → BlockMap
  | [], _ => []
  | (k, b) :: rest, pos =>
      if k = pos then rest else (k, b) :: eraseBlock rest pos

/-- Safe block deletion with orphaning, from the `map.cpp` snippet in
`src/Audit/FAILURE_MODE_FIXES.md`:

    auto it = m_blocks.find(pos);
    if (it != m_blocks.end()) {
        MapBlock *block = it->second;
        if (block) {
            block->makeOrphan();  // Prevent dangling references
            delete block;
        }
        m_blocks.erase(it);
    }

Returns the updated table together with the ordered trace of lifecycle
events the execution performs. -/
def deleteBlock (m : BlockMap) (pos : v4s16) : BlockMap × List MapEvent :=
  match findBlock m pos with
  | none => (m, [])
  | some none => (eraseBlock m pos, [MapEvent.eraseEntry pos])
  | some (some block) =>
      (eraseBlock m pos,
        [MapEvent.makeOrphan block.ident, MapEvent.destroyBlock block.ident,
          MapEvent.eraseEntry pos])

/-- Modelled from the spec: the Block Store `get` operation ("`get` on an
absent coordinate returns an explicit absent indicator, never a
default-constructed Block").  The concrete getter of `map.cpp` is not among
the audited sources; the spec fixes its contract.  A present key is looked up
with the same `find` as deletion; a null entry counts as absent. -/
def getBlock (m : BlockMap) (pos : v4s16) : Option MapBlock :=
  match findBlock m pos with
  | some (some b) => some b
  | _ => none

/-- Legacy 3-axis access: pure projection through `v4s16.ofV3` at Phase 0. -/
def getBlock3 (m : BlockMap) (pos : v3s16) : Option MapBlock :=
  getBlock m (v4s16.ofV3 pos)

/-- Hash formula in the order the spec claims it: Phase in the highest lane
(bits 48-63), then Z, then Y, then X in the lowest lane (bits 0-15). -/
def HashSpecClaim (pos : v4s16) : Nat :=
  (u16ofS16 pos.P <<< 48) ^^^ (u16ofS16 pos.Z <<< 32) ^^^
    (u16ofS16 pos.Y <<< 16) ^^^ u16ofS16 pos.X

/-- Legacy encoding in the shape the spec claims it: offset each component
into non-negative space first, then pack (offset-then-pack). -/
def MapDatabase.getBlockAsInteger_v3_offsetSpec (pos : v3s16) : Int :=
  (pos.Z + 0x800) * 2 ^ 24 + (pos.Y + 0x800) * 2 ^ 12 + (pos.X + 0x800)

/-! Helper lemmas shared by several claim proofs. -/

theorem u16ofS16_lt (x : Int) : u16ofS16 x < 65536 := by
  unfold u16ofS16; omega

theorem s16ofBits_u16ofS16 (x : Int) (h : InS16 x) :
    s16ofBits (u16ofS16 x) = x := by
  unfold InS16 at h
  unfold s16ofBits u16ofS16
  split <;> omega

theorem u16ofS16_s16ofBits (n : Nat) :
    u16ofS16 (s16ofBits n) = n % 65536 := by
  unfold s16ofBits u16ofS16
  split <;> omega

theorem shl_xor_add (a b i : Nat) (hb : b < 2 ^ i) :
    (a <<< i) ^^^ b = a <<< i + b := by
  rw [Nat.shiftLeft_eq, Nat.mul_comm]
  apply Nat.eq_of_testBit_eq
  intro j
  rw [Nat.testBit_xor, Nat.testBit_mul_pow_two_add a hb j, Nat.testBit_mul_pow_two]
  by_cases hj : j < i
  · simp [hj, Nat.not_le_of_lt hj]
  · have hij : i ≤ j := Nat.le_of_not_lt hj
    have hbj : b < 2 ^ j :=
      Nat.lt_of_lt_of_le hb (Nat.pow_le_pow_right (by norm_num) hij)
    simp [hj, hij, Nat.testBit_lt_two_pow hbj]

theorem v4s16_hash_eq_sum (c : v4s16) :
    v4s16.Hash c =
      u16ofS16 c.X * 2 ^ 48 + u16ofS16 c.Y * 2 ^ 32 +
        u16ofS16 c.Z * 2 ^ 16 + u16ofS16 c.P := by
  have hx := u16ofS16_lt c.X
  have hy := u16ofS16_lt c.Y
  have hz := u16ofS16_lt c.Z
  have hp := u16ofS16_lt c.P
  unfold v4s16.Hash
  rw [Nat.xor_assoc, Nat.xor_assoc]
  rw [shl_xor_add (u16ofS16 c.Z) (u16ofS16 c.P) 16 (by omega)]
  rw [shl_xor_add (u16ofS16 c.Y) _ 32
    (by rw [Nat.shiftLeft_eq]; omega)]
  rw [shl_xor_add (u16ofS16 c.X) _ 48
    (by rw [Nat.shiftLeft_eq, Nat.shiftLeft_eq]; omega)]
  rw [Nat.shiftLeft_eq, Nat.shiftLeft_eq, Nat.shiftLeft_eq]
  omega

theorem findBlock_eq_none (m : BlockMap) (pos : v4s16)
    (h : pos ∉ m.map Prod.fst) : findBlock m pos = none := by
  induction m with
  | nil => rfl
  | cons e rest ih =>
    obtain ⟨k, b⟩ := e
    simp only [List.map_cons, List.mem_cons] at h
    push_neg at h
    simp only [findBlock]
    rw [if_neg (fun hk => h.1 hk.symm)]
    exact ih h.2

/-! The claims. -/

/-- C1: for every `v4s16` with all components in the signed 16-bit range,
decoding the encoding returns the original coordinate under the phase-aware
4-axis scheme, and for every `v3s16` with components in `[-2047, 2047]`,
decoding the encoding returns the original coordinate under the legacy
3-axis scheme. -/
theorem c1_codec_roundtrip (c4 : v4s16) (c3 : v3s16)
    (h4 : InS16 c4.X ∧ InS16 c4.Y ∧ InS16 c4.Z ∧ InS16 c4.P)
    (h3 : -2047 ≤ c3.X ∧ c3.X ≤ 2047 ∧ -2047 ≤ c3.Y ∧ c3.Y ≤ 2047 ∧
      -2047 ≤ c3.Z ∧ c3.Z ≤ 2047) :
    MapDatabase.getIntegerAsBlock_v4 (MapDatabase.getBlockAsInteger_v4 c4) = c4 ∧
    MapDatabase.getIntegerAsBlock_v3 (MapDatabase.getBlockAsInteger_v3 c3) = c3 := by
  obtain ⟨hX, hY, hZ, hP⟩ := h4
  constructor
  · have bx := u16ofS16_lt c4.X
    have by' := u16ofS16_lt c4.Y
    have bz := u16ofS16_lt c4.Z
    have bp := u16ofS16_lt c4.P
    obtain ⟨X, Y, Z, P⟩ := c4
    unfold MapDatabase.getBlockAsInteger_v4 MapDatabase.getIntegerAsBlock_v4
    simp only at bx by' bz bp hX hY hZ hP ⊢
    have e1 : (u16ofS16 P * 2 ^ 48 + u16ofS16 Z * 2 ^ 32 +
        u16ofS16 Y * 2 ^ 16 + u16ofS16 X) % 65536 = u16ofS16 X := by omega
    have e2 : (u16ofS16 P * 2 ^ 48 + u16ofS16 Z * 2 ^ 32 +
        u16ofS16 Y * 2 ^ 16 + u16ofS16 X) / 2 ^ 16 % 65536 = u16ofS16 Y := by omega
    have e3 : (u16ofS16 P * 2 ^ 48 + u16ofS16 Z * 2 ^ 32 +
        u16ofS16 Y * 2 ^ 16 + u16ofS16 X) / 2 ^ 32 % 65536 = u16ofS16 Z := by omega
    have e4 : (u16ofS16 P * 2 ^ 48 + u16ofS16 Z * 2 ^ 32 +
        u16ofS16 Y * 2 ^ 16 + u16ofS16 X) / 2 ^ 48 % 65536 = u16ofS16 P := by omega
    rw [e1, e2, e3, e4, s16ofBits_u16ofS16 X hX, s16ofBits_u16ofS16 Y hY,
      s16ofBits_u16ofS16 Z hZ, s16ofBits_u16ofS16 P hP]
  · have hf1 : ∀ a : Int, Int.fdiv a 4096 = a / 4096 :=
      fun a => Int.fdiv_eq_ediv a (by norm_num)
    have hf2 : ∀ a : Int, Int.fdiv a 16777216 = a / 16777216 :=
      fun a => Int.fdiv_eq_ediv a (by norm_num)
    obtain ⟨X, Y, Z⟩ := c3
    unfold MapDatabase.getBlockAsInteger_v3 MapDatabase.getIntegerAsBlock_v3
    simp only at h3 ⊢
    rw [hf1, hf2]
    simp only [v3s16.mk.injEq]
    refine ⟨?_, ?_, ?_⟩ <;> omega

/-- C1 witness: the round trip at the concrete coordinates `(10, 20, 30, 5)`
and `(-2047, 0, 2047)`. -/
theorem c1_codec_roundtrip_witness :
    ((InS16 10 ∧ InS16 20 ∧ InS16 30 ∧ InS16 5) ∧
      (-2047 ≤ (-2047 : Int) ∧ (-2047 : Int) ≤ 2047 ∧ -2047 ≤ (0 : Int) ∧
        (0 : Int) ≤ 2047 ∧ -2047 ≤ (2047 : Int) ∧ (2047 : Int) ≤ 2047)) ∧
    (MapDatabase.getIntegerAsBlock_v4
        (MapDatabase.getBlockAsInteger_v4 ⟨10, 20, 30, 5⟩) = ⟨10, 20, 30, 5⟩ ∧
      MapDatabase.getIntegerAsBlock_v3
        (MapDatabase.getBlockAsInteger_v3 ⟨-2047, 0, 2047⟩) = ⟨-2047, 0, 2047⟩) :=
  ⟨⟨by decide, by decide⟩,
    c1_codec_roundtrip ⟨10, 20, 30, 5⟩ ⟨-2047, 0, 2047⟩ (by decide) (by decide)⟩

/-- C10: under the phase-aware 4-axis scheme, decoding is total over the full
64-bit key space, and encoding is its two-sided inverse: for every key
pattern `k`, re-encoding the decoded coordinate gives back `k mod 2^64` (so
for `k < 2^64` exactly `k`, making the codec a bijection between `v4s16`
bit-pattern classes and 64-bit keys). -/
theorem c10_decode_encode_total (k : Nat) :
    MapDatabase.getBlockAsInteger_v4 (MapDatabase.getIntegerAsBlock_v4 k) =
      k % 2 ^ 64 := by
  unfold MapDatabase.getBlockAsInteger_v4 MapDatabase.getIntegerAsBlock_v4
  simp only [u16ofS16_s16ofBits]
  omega

/-- C4 counterexample: the spec places Phase in the highest hash lane and X in
the lowest, but `v4s16::Hash` does the opposite; at the coordinate
`(1, 0, 0, 0)` the code's hash is `2^48` while the claimed formula gives 1. -/
theorem c4_hash_lane_order_cex :
    v4s16.Hash ⟨1, 0, 0, 0⟩ ≠ HashSpecClaim ⟨1, 0, 0, 0⟩ := by decide

/-- C4 amended: the coordinate hash packs the four 16-bit unsigned component
bit-patterns into non-overlapping 16-bit lanes of a 64-bit word with X in the
highest lane (bits 48-63), then Y, then Z, then Phase in the lowest lane
(bits 0-15), combined with XOR; since the lanes never overlap, the XOR
combination equals the packed sum
`(u16)X * 2^48 + (u16)Y * 2^32 + (u16)Z * 2^16 + (u16)P`. -/
theorem c4_hash_lane_order_amended (c : v4s16) :
    v4s16.Hash c =
      u16ofS16 c.X * 2 ^ 48 + u16ofS16 c.Y * 2 ^ 32 +
        u16ofS16 c.Z * 2 ^ 16 + u16ofS16 c.P :=
  v4s16_hash_eq_sum c

/-- C5 counterexample: the legacy encoder does not offset components into
non-negative space before packing; at `(0, 0, 0)` offset-then-pack would give
`0x800800800`, while the code gives 0. -/
theorem c5_legacy_offset_cex :
    MapDatabase.getBlockAsInteger_v3 ⟨0, 0, 0⟩ ≠
      MapDatabase.getBlockAsInteger_v3_offsetSpec ⟨0, 0, 0⟩ := by decide

/-- C5 amended: the legacy 3-axis encoder packs the signed components
directly, `(Z << 24) + (Y << 12) + X` in signed arithmetic, so `(0, 0, 0)`
encodes to 0; the offset mapping into non-negative space happens in the
decoder (which adds `0x800800800` before masking), equivalently the encoded
key plus `0x800800800` equals the offset-then-pack value for every
coordinate. -/
theorem c5_legacy_offset_amended :
    (∀ c : v3s16,
      MapDatabase.getBlockAsInteger_v3 c + 0x800800800 =
        MapDatabase.getBlockAsInteger_v3_offsetSpec c) ∧
    MapDatabase.getBlockAsInteger_v3 ⟨0, 0, 0⟩ = 0 := by
  constructor
  · intro c
    unfold MapDatabase.getBlockAsInteger_v3 MapDatabase.getBlockAsInteger_v3_offsetSpec
    ring
  · decide

/-- C2: the effective generation seed for a phase is
`(baseSeed + phase) mod 2^64`, computed in 64-bit unsigned arithmetic on the
untruncated base seed; the only narrowing to the generator's 32-bit width is
applied once, as the last step, to that full 64-bit sum; and
`derive(0xFFFFFFFFFFFFFFFF, 1) = 0` by wraparound. -/
theorem c2_seed_derivation (base : Nat) (p : Int)
    (hbase : base < 2 ^ 64) (hp : 0 ≤ p ∧ p < 65536) :
    phase_modified_seed base p = (base + p.toNat) % 2 ^ 64 ∧
    mapgen_seed base p = (base + p.toNat) % 2 ^ 64 % 2 ^ 32 ∧
    phase_modified_seed 0xFFFFFFFFFFFFFFFF 1 = 0 := by
  have hid : u16ofS16 p = p.toNat := by unfold u16ofS16; omega
  refine ⟨?_, ?_, by decide⟩
  · unfold phase_modified_seed
    rw [hid]
  · unfold mapgen_seed phase_modified_seed
    rw [hid]

/-- C2 witness: the derivation at base seed `0xFFFFFFFFFFFFFFFF` and
phase 1 wraps to 0. -/
theorem c2_seed_derivation_witness :
    ((0xFFFFFFFFFFFFFFFF : Nat) < 2 ^ 64 ∧ ((0 : Int) ≤ 1 ∧ (1 : Int) < 65536)) ∧
    (phase_modified_seed 0xFFFFFFFFFFFFFFFF 1 =
        (0xFFFFFFFFFFFFFFFF + (1 : Int).toNat) % 2 ^ 64 ∧
      mapgen_seed 0xFFFFFFFFFFFFFFFF 1 =
        (0xFFFFFFFFFFFFFFFF + (1 : Int).toNat) % 2 ^ 64 % 2 ^ 32 ∧
      phase_modified_seed 0xFFFFFFFFFFFFFFFF 1 = 0) :=
  ⟨⟨by decide, by decide⟩,
    c2_seed_derivation 0xFFFFFFFFFFFFFFFF 1 (by decide) (by decide)⟩

/-- C3: in every execution of block removal, a removed block is marked
orphaned strictly before its destructor-equivalent cleanup runs: whenever the
trace of `deleteBlock` destroys block `b` at position `j`, a `makeOrphan b`
event occurs strictly earlier in the trace. -/
theorem c3_orphan_before_destroy (m : BlockMap) (pos : v4s16) (b j : Nat)
    (hdes : (deleteBlock m pos).2[j]? = some (MapEvent.destroyBlock b)) :
    MapEvent.makeOrphan b ∈ (deleteBlock m pos).2.take j := by
  unfold deleteBlock at hdes ⊢
  rcases hfind : findBlock m pos with _ | (_ | blk) <;>
    rcases j with _ | _ | _ | j <;>
    simp_all

/-- C3 witness: deleting the block with identity 7 stored at `(1, 2, 3, 0)`
produces a trace whose destroy event (index 1) is preceded by its orphan
event. -/
theorem c3_orphan_before_destroy_witness :
    ((deleteBlock [(⟨1, 2, 3, 0⟩, some ⟨7, false⟩)] ⟨1, 2, 3, 0⟩).2[1]? =
        some (MapEvent.destroyBlock 7)) ∧
    MapEvent.makeOrphan 7 ∈
      (deleteBlock [(⟨1, 2, 3, 0⟩, some ⟨7, false⟩)] ⟨1, 2, 3, 0⟩).2.take 1 :=
  ⟨by decide, c3_orphan_before_destroy _ _ 7 1 (by decide)⟩

set_option maxHeartbeats 1000000 in
/-- C6: two `v4s16` coordinates (components in the signed 16-bit range) that
differ in exactly one of the four components while the other three are equal
have different hash values. -/
theorem c6_hash_single_component (c1 c2 : v4s16)
    (h1 : InS16 c1.X ∧ InS16 c1.Y ∧ InS16 c1.Z ∧ InS16 c1.P)
    (h2 : InS16 c2.X ∧ InS16 c2.Y ∧ InS16 c2.Z ∧ InS16 c2.P)
    (hdiff :
      (c1.X ≠ c2.X ∧ c1.Y = c2.Y ∧ c1.Z = c2.Z ∧ c1.P = c2.P) ∨
      (c1.X = c2.X ∧ c1.Y ≠ c2.Y ∧ c1.Z = c2.Z ∧ c1.P = c2.P) ∨
      (c1.X = c2.X ∧ c1.Y = c2.Y ∧ c1.Z ≠ c2.Z ∧ c1.P = c2.P) ∨
      (c1.X = c2.X ∧ c1.Y = c2.Y ∧ c1.Z = c2.Z ∧ c1.P ≠ c2.P)) :
    v4s16.Hash c1 ≠ v4s16.Hash c2 := by
  rw [v4s16_hash_eq_sum c1, v4s16_hash_eq_sum c2]
  unfold InS16 at h1 h2
  unfold u16ofS16
  rcases hdiff with h | h | h | h <;> omega

/-- C6 witness: `(1, 2, 3, 4)` and `(5, 2, 3, 4)` differ only in X and hash
differently. -/
theorem c6_hash_single_component_witness :
    ((InS16 1 ∧ InS16 2 ∧ InS16 3 ∧ InS16 4) ∧
      (InS16 5 ∧ InS16 2 ∧ InS16 3 ∧ InS16 4) ∧
      ((1 : Int) ≠ 5 ∧ (2 : Int) = 2 ∧ (3 : Int) = 3 ∧ (4 : Int) = 4)) ∧
    v4s16.Hash ⟨1, 2, 3, 4⟩ ≠ v4s16.Hash ⟨5, 2, 3, 4⟩ :=
  ⟨⟨by decide, by decide, by decide⟩,
    c6_hash_single_component ⟨1, 2, 3, 4⟩ ⟨5, 2, 3, 4⟩ (by decide) (by decide)
      (Or.inl (by decide))⟩

/-- C7: seed derivation at Phase 0 is the identity on every 64-bit seed, and
two distinct 16-bit phase identifiers always derive distinct seeds from the
same base (no mod-2^64 collision is possible for 16-bit phases). -/
theorem c7_seed_identity_injective (seed : Nat) (p1 p2 : Int)
    (hseed : seed < 2 ^ 64) (h1 : InS16 p1) (h2 : InS16 p2) (hne : p1 ≠ p2) :
    phase_modified_seed seed 0 = seed ∧
    phase_modified_seed seed p1 ≠ phase_modified_seed seed p2 := by
  unfold InS16 at h1 h2
  unfold phase_modified_seed u16ofS16
  constructor
  · omega
  · intro heq
    omega

/-- C7 witness: Phase 0 reproduces the seed 123456789, and phases 1 and 2
derive different seeds from it. -/
theorem c7_seed_identity_injective_witness :
    ((123456789 : Nat) < 2 ^ 64 ∧ InS16 1 ∧ InS16 2 ∧ (1 : Int) ≠ 2) ∧
    (phase_modified_seed 123456789 0 = 123456789 ∧
      phase_modified_seed 123456789 1 ≠ phase_modified_seed 123456789 2) :=
  ⟨⟨by decide, by decide, by decide, by decide⟩,
    c7_seed_identity_injective 123456789 1 2 (by decide) (by decide) (by decide)
      (by decide)⟩

/-- C8: the 3-axis surface is a pure projection of the 4-axis operations at
Phase 0: building a `v4s16` from three integers defaults Phase to 0 and
equals the 4-axis constructor with Phase explicitly 0; building from a
`v3s16` likewise; converting back recovers the `v3s16`; and the legacy
3-axis store lookup equals the 4-axis lookup at Phase 0. -/
theorem c8_phase0_projection (x y z : Int) (v : v3s16) (m : BlockMap) :
    ({ X := x, Y := y, Z := z } : v4s16) = { X := x, Y := y, Z := z, P := 0 } ∧
    ({ X := x, Y := y, Z := z } : v4s16).P = 0 ∧
    v4s16.ofV3 v = { X := v.X, Y := v.Y, Z := v.Z, P := 0 } ∧
    (v4s16.ofV3 v).P = 0 ∧
    v4s16.toV3s16 (v4s16.ofV3 v) = v ∧
    getBlock3 m v = getBlock m { X := v.X, Y := v.Y, Z := v.Z, P := 0 } :=
  ⟨rfl, rfl, rfl, rfl, rfl, rfl⟩

/-- C9: looking up a coordinate absent from the store returns the explicit
absent indicator (never a default block), and removal at an absent coordinate
is a no-op that leaves the store unchanged and performs no lifecycle event. -/
theorem c9_absent_policy (m : BlockMap) (pos : v4s16)
    (habs : pos ∉ m.map Prod.fst) :
    getBlock m pos = none ∧ deleteBlock m pos = (m, ([] : List MapEvent)) := by
  have hf := findBlock_eq_none m pos habs
  unfold getBlock deleteBlock
  rw [hf]
  exact ⟨rfl, rfl⟩

/-- C9 witness: in a store holding only `(1, 0, 0, 0)`, the absent coordinate
`(0, 0, 0, 0)` reads as absent and its removal is a no-op. -/
theorem c9_absent_policy_witness :
    ((⟨0, 0, 0, 0⟩ : v4s16) ∉
        ([(⟨1, 0, 0, 0⟩, some ⟨5, false⟩)] : BlockMap).map Prod.fst) ∧
    (getBlock [(⟨1, 0, 0, 0⟩, some ⟨5, false⟩)] ⟨0, 0, 0, 0⟩ = none ∧
      deleteBlock [(⟨1, 0, 0, 0⟩, some ⟨5, false⟩)] ⟨0, 0, 0, 0⟩ =
        ([(⟨1, 0, 0, 0⟩, some ⟨5, false⟩)], ([] : List MapEvent))) :=
  ⟨by decide, c9_absent_policy _ _ (by decide)⟩
